import Mathlib

/-
Verification of the graph-simulation example program (sim.cpp):
a shallow embedding of its data model (pattern graph, match set) and of its
per-vertex kernel (kernel_check_childs, CheckU, update, iteration hooks),
together with theorems settling the specification claims about it.

Machine integers (vid_t, unsigned, size_t) are modelled as Nat: every value
the program stores or compares in the modelled fragment is small (labels are
rand() % 5, ids are vertex indices), so no arithmetic overflow can occur and
no explicit modular reduction is needed; the single place where size_t
wrap-around could matter (n - 1 at n = 0 in InitPatternNClique) is noted at
that definition.
-/

set_option autoImplicit false

namespace GraphSim

/-- Modelled from the spec: the Bit-Set component (util/bitmap.hpp is not under
src/). The spec describes it as a bit vector with set/clear/test operations;
a bitmap is modelled as a total function from bit index to Bool, setting a bit
as a pointwise override to true. Capacity checks never bind in the modelled
scenarios (all indices used are far below the allocated capacities). -/
def bitSet (f : Nat → Bool) (i : Nat) : Nat → Bool :=
  fun k => if k = i then true else f k

/-- Modelled from the spec: clearing one bit of a bitmap (Bitmap::rm_bit). -/
def bitClear (f : Nat → Bool) (i : Nat) : Nat → Bool :=
  fun k => if k = i then false else f k

/-- Modelled from the spec: a two-dimensional family of bitmaps (the per-target
row bitmaps sim_sets_), setting bit (a, b). -/
def simSet (f : Nat → Nat → Bool) (a b : Nat) : Nat → Nat → Bool :=
  fun u p => if u = a ∧ p = b then true else f u p

/-- Modelled from the spec: clearing bit (a, b) of the row bitmaps. -/
def simClear (f : Nat → Nat → Bool) (a b : Nat) : Nat → Nat → Bool :=
  fun u p => if u = a ∧ p = b then false else f u p

/-- The out-edge array a pattern vertex owns (unsigned *out_edges_ in sim.cpp,
allocated with size slots). cells are the allocated slots, none meaning the
slot was never written; oob records every write whose index fell outside the
allocation, as (index, value) pairs, so that out-of-bounds accesses of the
source are visible in the model instead of being silently absorbed. -/
structure EdgeArray where
  size : Nat
  cells : List (Option Nat)
  oob : List (Nat × Nat)
deriving Inhabited

/-- A freshly malloc-ed out-edge array of the given size (contents modelled as
unwritten rather than as indeterminate bytes). -/
def EdgeArray.alloc (size : Nat) : EdgeArray :=
  ⟨size, List.replicate size none, []⟩

/-- One array store out_edges_[idx] = val, recording it in oob when idx is
outside the allocation. -/
def EdgeArray.write (a : EdgeArray) (idx val : Nat) : EdgeArray :=
  if idx < a.size then { a with cells := a.cells.set idx (some val) }
  else { a with oob := a.oob ++ [(idx, val)] }

/-- struct Vertex of sim.cpp (a pattern-graph vertex): id, degrees, label and
the owned out-edge array. Field order follows the source. -/
structure Vertex where
  vid : Nat
  indegree : Nat
  outdegree : Nat
  label : Nat
  out_edges : EdgeArray
deriving Inhabited

/-- struct ImmutableCSR of sim.cpp: the pattern graph, a vertex count, an edge
count and the vertex array (Vertex** modelled as a list; vertexes_[j] is
vertexes.getD j default). -/
structure ImmutableCSR where
  num_vertexes : Nat
  num_edges : Nat
  vertexes : List Vertex

/-- The intended out-neighbour id list of a pattern vertex: the written slots
of its out-edge array in order. Used only on the specification side (the
kernel in the source never reads out_edges_). -/
def outNeighbors (v : Vertex) : List Nat :=
  v.out_edges.cells.filterMap id

/-- InitPatternNClique of sim.cpp. rnd models the successive rand() results
(rnd i is the draw for vertex i, the code stores rand() % 5 as the label).
The loop body is the literal source loop: for j in [0, n), skip j = i, then
execute out_edges_[j] = i. num_edges_ is n * (n - 1); at n = 0 the C++
size_t expression 0 * (0 - 1) is 0, as is the Nat expression here, so Nat
subtraction agrees with size_t at every n. -/
def InitPatternNClique (rnd : Nat → Nat) (n : Nat) : ImmutableCSR :=
  { num_vertexes := n
    num_edges := n * (n - 1)
    vertexes := (List.range n).map (fun i =>
      { vid := i
        indegree := n - 1
        outdegree := n - 1
        label := rnd i % 5
        out_edges := (List.range n).foldl
          (fun a j => if i = j then a else a.write j i)
          (EdgeArray.alloc (n - 1)) }) }

/-- struct MatchSet of sim.cpp: indicator_ is the hasAny bitmap over target
vertex ids, sim is the candidate matrix (sim_sets_[u] bit p equals sim u p).
The constructor with init = true clears every bitmap, giving the all-false
state matchSetInit below. -/
structure MatchSet where
  indicator : Nat → Bool
  sim : Nat → Nat → Bool

/-- MatchSet(x, y, true) as built in main: indicator cleared and every row
bitmap allocated and cleared. -/
def matchSetInit : MatchSet :=
  ⟨fun _ => false, fun _ _ => false⟩

/-- A target-graph vertex as the engine hands it to the update function:
its id (vertex.vertexid) and its edge list, edge i being the pair
(vertex.edge(i)->vertex_id(), vertex.edge(i)->get_data()); the enumeration
spans the in- and out-edges exactly as graphchi_vertex::edge does. -/
structure GVertex where
  vertexid : Nat
  edges : List (Nat × Nat)

/-- SimPragram::kernel_check_childs of sim.cpp, translated literally:
the outer for loop over the edges of u contains the return statement, so only
the first edge is ever examined and a vertex with no edges reaches the end of
the function without returning (undefined result, modelled as none).
For the first edge, count accumulates over j in [0, outdegree of
vertexes_[pattern_vid]) the tests on pattern_->vertexes_[j] (not on the
out-neighbour list): labels compared against the edge payload and the
indicator bit tested at that pattern vertex's own vid. -/
def kernel_check_childs (g : ImmutableCSR) (ms : MatchSet) (u : GVertex)
    (pattern_vid : Nat) : Option Bool :=
  match u.edges with
  | [] => none
  | e :: _ =>
    let outdeg := (g.vertexes.getD pattern_vid default).outdegree
    let count := (List.range outdeg).foldl
      (fun c j =>
        let nv := g.vertexes.getD j default
        if e.2 = nv.label then
          (if ms.indicator nv.vid then c + 1 else c)
        else c) 0
    some (decide (count = outdeg))

/-- SimPragram::CheckU of sim.cpp: delegates to kernel_check_childs (the local
uid binding of the source is dead code). -/
def CheckU (g : ImmutableCSR) (ms : MatchSet) (u : GVertex)
    (pattern_vid : Nat) : Option Bool :=
  kernel_check_childs g ms u pattern_vid

/-- The whole mutable state an update invocation touches: the match set, the
member flag converged, the engine-held vertex data (vertex.get_data and
set_data, indexed by vertex id) and the scheduler task queue (the ids passed
to add_task, in order). -/
structure SimState where
  ms : MatchSet
  converged : Bool
  data : Nat → Nat
  tasks : List Nat

/-- The entry of SimPragram::update: if the scheduler is enabled,
remove_tasks(vertex.id(), vertex.id()) drops this vertex from the queue. -/
def updateEntry (schedOn : Bool) (v : GVertex) (st : SimState) : SimState :=
  if schedOn then
    { st with tasks := st.tasks.filter (fun t => t != v.vertexid) }
  else st

/-- The iteration == 0 branch of update: vertex.set_data(rand() % 5), and with
the scheduler enabled add_task(rand() % 5) (the source really passes a fresh
random draw, not the vertex id). r1 and r2 model the two rand() results. -/
def updateIter0 (schedOn : Bool) (r1 r2 : Nat) (v : GVertex)
    (st : SimState) : SimState :=
  if schedOn then
    { st with
      data := fun u => if u = v.vertexid then r1 % 5 else st.data u
      tasks := st.tasks ++ [r2 % 5] }
  else
    { st with
      data := fun u => if u = v.vertexid then r1 % 5 else st.data u }

/-- One pass of the for loop of the iteration == 1 branch, at pattern index i:
if vertex.get_data() equals that pattern vertex's label, set the indicator bit
at vertex.vertexid and the sim bit (vertex.vertexid, i). -/
def markStep (g : ImmutableCSR) (v : GVertex) (i : Nat)
    (st : SimState) : SimState :=
  if st.data v.vertexid = (g.vertexes.getD i default).label then
    { st with ms :=
      { indicator := bitSet st.ms.indicator v.vertexid
        sim := simSet st.ms.sim v.vertexid i } }
  else st

/-- The for loop of the iteration == 1 branch over the pattern indices. -/
def markLoop (g : ImmutableCSR) (v : GVertex) (idxs : List Nat)
    (st : SimState) : SimState :=
  match idxs with
  | [] => st
  | i :: rest => markLoop g v rest (markStep g v i st)

/-- The iteration == 1 branch of update: if the indicator bit of this vertex
is already set, do nothing, else run the marking loop over every pattern
index. -/
def updateIter1 (g : ImmutableCSR) (v : GVertex) (st : SimState) : SimState :=
  if st.ms.indicator v.vertexid then st
  else markLoop g v (List.range g.num_vertexes) st

/-- The inner for loop run after a failed check: for every edge of the vertex,
add_task(edge vertex id, true) when the scheduler is enabled, and set
converged = false. Both statements sit inside the edge loop in the source, so
a vertex with no edges executes neither. -/
def scheduleLoop (schedOn : Bool) (es : List (Nat × Nat))
    (st : SimState) : SimState :=
  match es with
  | [] => st
  | e :: rest =>
    scheduleLoop schedOn rest
      { st with
        tasks := if schedOn then st.tasks ++ [e.1] else st.tasks
        converged := false }

/-- One pass of the for loop of the iteration > 1 branch of update, at
pattern index i, translated literally: pattern_vid is vertexes_[i].vid; the
bit tested and (on a failed check) cleared is sim_sets_[i] bit pattern_vid -
the row index is the pattern loop variable i, not the id of the vertex being
updated. A zero-edge vertex makes CheckU undefined (none); ub supplies the
value such an undefined call is resolved to, so theorems quantifying over ub
cover every resolution of that undefined behaviour. -/
def refineStep (g : ImmutableCSR) (schedOn ub : Bool) (v : GVertex)
    (i : Nat) (st : SimState) : SimState :=
  let pattern_vid := (g.vertexes.getD i default).vid
  if st.ms.sim i pattern_vid then
    (if (CheckU g st.ms v pattern_vid).getD ub then st
     else
       scheduleLoop schedOn v.edges
         { st with ms := { st.ms with
            sim := simClear st.ms.sim i pattern_vid } })
  else st

/-- The for loop of the iteration > 1 branch of update over the pattern
indices. -/
def refineLoop (g : ImmutableCSR) (schedOn ub : Bool) (v : GVertex)
    (idxs : List Nat) (st : SimState) : SimState :=
  match idxs with
  | [] => st
  | i :: rest => refineLoop g schedOn ub v rest (refineStep g schedOn ub v i st)

/-- SimPragram::update of sim.cpp: the scheduler entry, then the three
iteration branches (iteration == 0, == 1, > 1), which are mutually exclusive
for any fixed iteration number. -/
def update (g : ImmutableCSR) (schedOn : Bool) (r1 r2 : Nat) (ub : Bool)
    (v : GVertex) (iter : Nat) (st : SimState) : SimState :=
  let st1 := updateEntry schedOn v st
  let st2 := if iter = 0 then updateIter0 schedOn r1 r2 v st1 else st1
  let st3 := if iter = 1 then updateIter1 g v st2 else st2
  if 1 < iter then refineLoop g schedOn ub v (List.range g.num_vertexes) st3
  else st3

/-- SimPragram::before_iteration: converged = iteration > 0 (the global
iterationcount counter it also bumps is never read and is not modelled). -/
def before_iteration (iter : Nat) (st : SimState) : SimState :=
  { st with converged := decide (0 < iter) }

/-- SimPragram::after_iteration: returns whether the hook requests early
termination, i.e. calls set_last_iteration; it does so exactly when the
converged flag is set. -/
def after_iteration (st : SimState) : Bool :=
  st.converged

/-- One engine callback of the update function: the vertex it is invoked on,
the iteration number, the two rand() draws and the resolution of an undefined
CheckU result (relevant only to zero-edge vertices at iteration > 1). -/
structure Event where
  v : GVertex
  iteration : Nat
  rnd1 : Nat
  rnd2 : Nat
  ub : Bool

/-- A sequence of engine callbacks applied in order. -/
def runEvents (g : ImmutableCSR) (schedOn : Bool) (events : List Event)
    (st : SimState) : SimState :=
  match events with
  | [] => st
  | e :: rest =>
    runEvents g schedOn rest (update g schedOn e.rnd1 e.rnd2 e.ub e.v e.iteration st)

/-- Follows the spec's words (the child check of section 4.3), for comparison
with kernel_check_childs: every out-neighbour q of the pattern vertex must be
covered by some edge of u whose endpoint's current label equals q's label and
whose endpoint has a non-empty candidate set (indicator bit set). nbrs is the
out-neighbour id list of the pattern vertex under check, data the per-vertex
label store. -/
def childCheckSpec (g : ImmutableCSR) (data : Nat → Nat) (ms : MatchSet)
    (u : GVertex) (nbrs : List Nat) : Bool :=
  nbrs.all (fun q =>
    u.edges.any (fun e =>
      decide (data e.1 = (g.vertexes.getD q default).label) && ms.indicator e.1))

/-- Label necessity invariant: every set candidate bit (u, p) is justified by
the label of u agreeing with the label of pattern vertex p. -/
def LabelInv (g : ImmutableCSR) (st : SimState) : Prop :=
  ∀ u p, st.ms.sim u p = true → st.data u = (g.vertexes.getD p default).label

/- ------------------------------------------------------------------ -/
/- Concrete fixtures used by the counterexample and witness theorems.  -/
/- ------------------------------------------------------------------ -/

/-- A one-vertex pattern graph: vertex 0 with label 5 and out-degree 1
(its out-edge list irrelevant to the kernel, which never reads it). -/
def patA : ImmutableCSR :=
  ⟨1, 0, [⟨0, 0, 1, 5, ⟨0, [], []⟩⟩]⟩

/-- A two-vertex pattern graph: vertex 0 (label 0) with the single
out-neighbour 1, vertex 1 (label 9) with no out-neighbours. -/
def c1G : ImmutableCSR :=
  ⟨2, 1, [⟨0, 0, 1, 0, ⟨1, [some 1], []⟩⟩, ⟨1, 1, 0, 9, ⟨0, [], []⟩⟩]⟩

/-- A match-set state in which target vertex 5 is a live candidate
(indicator set, candidate bit (5, 1) set) and no other bit is set. -/
def c1Ms : MatchSet :=
  ⟨fun u => decide (u = 5), fun u p => decide (u = 5 ∧ p = 1)⟩

/-- Target labels: vertex 5 carries label 9, every other vertex label 0. -/
def c1Data : Nat → Nat := fun u => if u = 5 then 9 else 0

/-- Target vertex 4 with a single out-edge to vertex 5, edge payload 9. -/
def c1U : GVertex := ⟨4, [(5, 9)]⟩

/-- Target vertex 5 with one edge to vertex 3, edge payload 7. -/
def c2V : GVertex := ⟨5, [(3, 7)]⟩

/-- State with candidate bits (0, 0) and (5, 0) set and converged true. -/
def c2St : SimState :=
  ⟨⟨fun u => decide (u = 0 ∨ u = 5),
    fun u p => decide ((u = 0 ∧ p = 0) ∨ (u = 5 ∧ p = 0))⟩,
   true, fun _ => 0, []⟩

/-- Target vertex 0 with one edge to vertex 3, edge payload 7. -/
def c3V : GVertex := ⟨0, [(3, 7)]⟩

/-- State in which target vertex 0 has exactly one candidate bit, (0, 0),
and its indicator bit is set (the hasAny invariant holds here). -/
def c3St : SimState :=
  ⟨⟨fun u => decide (u = 0), fun u p => decide (u = 0 ∧ p = 0)⟩,
   true, fun _ => 0, []⟩

/-- Target vertex 0 with no edges at all. -/
def c4V : GVertex := ⟨0, []⟩

/-- State with the single candidate bit (0, 0) set, its indicator set, and
converged initially false (before_iteration will reset it). -/
def c4St : SimState :=
  ⟨⟨fun u => decide (u = 0), fun u p => decide (u = 0 ∧ p = 0)⟩,
   false, fun _ => 0, []⟩

/-- State with no candidate bits and converged false, for exercising an
update that performs no prune. -/
def c4StQuiet : SimState :=
  ⟨matchSetInit, false, fun _ => 0, []⟩

/-- An iteration-2 callback on vertex 0 (one edge, payload 7) whose check
fails against patA, pruning bit (0, 0). -/
def c5Ev : Event := ⟨⟨0, [(3, 7)]⟩, 2, 0, 0, false⟩

/-- State with candidate bits (0, 0) and (1, 1) set. -/
def c5St : SimState :=
  ⟨⟨fun u => decide (u = 0), fun u p => decide ((u = 0 ∧ p = 0) ∨ (u = 1 ∧ p = 1))⟩,
   true, fun _ => 0, []⟩

/-- A one-vertex pattern graph: vertex 0 with label 4 and no out-edges. -/
def c7G : ImmutableCSR := ⟨1, 0, [⟨0, 0, 0, 4, ⟨0, [], []⟩⟩]⟩

/-- Target vertex 0 with no edges. -/
def c7V : GVertex := ⟨0, []⟩

/-- State with an empty match set and vertex 0 carrying label 4. -/
def c7St : SimState := ⟨matchSetInit, true, fun _ => 4, []⟩

/-- An iteration-0 callback on vertex 0 drawing rand() = 4 (label 4). -/
def c6Ev0 : Event := ⟨⟨0, []⟩, 0, 4, 0, false⟩

/-- An iteration-1 callback on vertex 0. -/
def c6Ev1 : Event := ⟨⟨0, []⟩, 1, 0, 0, false⟩

/-- The all-clear starting state of a run: empty match set, converged false,
all vertex data zero, empty task queue. -/
def st0 : SimState := ⟨matchSetInit, false, fun _ => 0, []⟩

/-- A fixed random source assigning label 0 everywhere, for evaluating
InitPatternNClique on concrete inputs. -/
def rnd0 : Nat → Nat := fun _ => 0

/- ------------------------------------------------------------------ -/
/- Basic lemmas on the bitmap operations.                              -/
/- ------------------------------------------------------------------ -/

theorem bitSet_eq_true (f : Nat → Bool) (i k : Nat) :
    bitSet f i k = true ↔ k = i ∨ f k = true := by
  unfold bitSet
  split_ifs with h
  · simp [h]
  · simp [h]

theorem simSet_eq_true (f : Nat → Nat → Bool) (a b u p : Nat) :
    simSet f a b u p = true ↔ (u = a ∧ p = b) ∨ f u p = true := by
  unfold simSet
  split_ifs with h
  · simp [h]
  · simp [h]

theorem simClear_eq_true (f : Nat → Nat → Bool) (a b u p : Nat) :
    simClear f a b u p = true → f u p = true := by
  unfold simClear
  split_ifs with h
  · intro hc
    exact absurd hc (by simp)
  · exact fun h => h

theorem simClear_self (f : Nat → Nat → Bool) (a b : Nat) :
    simClear f a b a b = false := by
  unfold simClear
  simp

/- ------------------------------------------------------------------ -/
/- Lemmas on scheduleLoop.                                             -/
/- ------------------------------------------------------------------ -/

theorem scheduleLoop_ms (s : Bool) (es : List (Nat × Nat)) :
    ∀ st : SimState, (scheduleLoop s es st).ms = st.ms := by
  induction es with
  | nil => intro st; rfl
  | cons e rest ih =>
    intro st
    rw [scheduleLoop, ih]

theorem scheduleLoop_data (s : Bool) (es : List (Nat × Nat)) :
    ∀ st : SimState, (scheduleLoop s es st).data = st.data := by
  induction es with
  | nil => intro st; rfl
  | cons e rest ih =>
    intro st
    rw [scheduleLoop, ih]

theorem scheduleLoop_converged_false (s : Bool) (es : List (Nat × Nat)) :
    ∀ st : SimState, st.converged = false →
      (scheduleLoop s es st).converged = false := by
  induction es with
  | nil => intro st h; exact h
  | cons e rest ih =>
    intro st _
    rw [scheduleLoop]
    exact ih _ rfl

theorem scheduleLoop_converged_ne_nil (s : Bool) {es : List (Nat × Nat)}
    (h : es ≠ []) (st : SimState) :
    (scheduleLoop s es st).converged = false := by
  cases es with
  | nil => exact absurd rfl h
  | cons e rest =>
    rw [scheduleLoop]
    exact scheduleLoop_converged_false s rest _ rfl

/- ------------------------------------------------------------------ -/
/- Lemmas on markStep and markLoop.                                    -/
/- ------------------------------------------------------------------ -/

theorem markStep_data (g : ImmutableCSR) (v : GVertex) (i : Nat)
    (st : SimState) : (markStep g v i st).data = st.data := by
  unfold markStep
  split_ifs <;> rfl

theorem markStep_converged (g : ImmutableCSR) (v : GVertex) (i : Nat)
    (st : SimState) : (markStep g v i st).converged = st.converged := by
  unfold markStep
  split_ifs <;> rfl

theorem markStep_sim_iff (g : ImmutableCSR) (v : GVertex) (i : Nat)
    (st : SimState) (u p : Nat) :
    (markStep g v i st).ms.sim u p = true ↔
      st.ms.sim u p = true ∨
        (u = v.vertexid ∧ p = i ∧
          st.data v.vertexid = (g.vertexes.getD i default).label) := by
  unfold markStep
  split_ifs with h
  · show simSet st.ms.sim v.vertexid i u p = true ↔ _
    rw [simSet_eq_true]
    constructor
    · rintro (⟨hu, hp⟩ | hs)
      · exact Or.inr ⟨hu, hp, h⟩
      · exact Or.inl hs
    · rintro (hs | ⟨hu, hp, _⟩)
      · exact Or.inr hs
      · exact Or.inl ⟨hu, hp⟩
  · constructor
    · exact Or.inl
    · rintro (hs | ⟨_, _, hc⟩)
      · exact hs
      · exact absurd hc h

theorem markStep_indicator_iff (g : ImmutableCSR) (v : GVertex) (i : Nat)
    (st : SimState) (u : Nat) :
    (markStep g v i st).ms.indicator u = true ↔
      st.ms.indicator u = true ∨
        (u = v.vertexid ∧
          st.data v.vertexid = (g.vertexes.getD i default).label) := by
  unfold markStep
  split_ifs with h
  · show bitSet st.ms.indicator v.vertexid u = true ↔ _
    rw [bitSet_eq_true]
    constructor
    · rintro (hu | hs)
      · exact Or.inr ⟨hu, h⟩
      · exact Or.inl hs
    · rintro (hs | ⟨hu, _⟩)
      · exact Or.inr hs
      · exact Or.inl hu
  · constructor
    · exact Or.inl
    · rintro (hs | ⟨_, hc⟩)
      · exact hs
      · exact absurd hc h

theorem markLoop_data (g : ImmutableCSR) (v : GVertex) (idxs : List Nat) :
    ∀ st : SimState, (markLoop g v idxs st).data = st.data := by
  induction idxs with
  | nil => intro st; rfl
  | cons i rest ih =>
    intro st
    rw [markLoop, ih, markStep_data]

theorem markLoop_converged (g : ImmutableCSR) (v : GVertex) (idxs : List Nat) :
    ∀ st : SimState, (markLoop g v idxs st).converged = st.converged := by
  induction idxs with
  | nil => intro st; rfl
  | cons i rest ih =>
    intro st
    rw [markLoop, ih, markStep_converged]

theorem markLoop_sim_iff (g : ImmutableCSR) (v : GVertex) (idxs : List Nat) :
    ∀ (st : SimState) (u p : Nat),
      (markLoop g v idxs st).ms.sim u p = true ↔
        st.ms.sim u p = true ∨
          (u = v.vertexid ∧ p ∈ idxs ∧
            st.data v.vertexid = (g.vertexes.getD p default).label) := by
  induction idxs with
  | nil =>
    intro st u p
    simp [markLoop]
  | cons i rest ih =>
    intro st u p
    rw [markLoop, ih, markStep_data, markStep_sim_iff]
    constructor
    · rintro ((hs | ⟨hu, hp, hc⟩) | ⟨hu, hp, hc⟩)
      · exact Or.inl hs
      · subst hp
        exact Or.inr ⟨hu, List.mem_cons_self _ _, hc⟩
      · exact Or.inr ⟨hu, List.mem_cons_of_mem _ hp, hc⟩
    · rintro (hs | ⟨hu, hp, hc⟩)
      · exact Or.inl (Or.inl hs)
      · rcases List.mem_cons.mp hp with hpi | hpr
        · subst hpi
          exact Or.inl (Or.inr ⟨hu, rfl, hc⟩)
        · exact Or.inr ⟨hu, hpr, hc⟩

theorem markLoop_indicator_iff (g : ImmutableCSR) (v : GVertex)
    (idxs : List Nat) :
    ∀ (st : SimState) (u : Nat),
      (markLoop g v idxs st).ms.indicator u = true ↔
        st.ms.indicator u = true ∨
          (u = v.vertexid ∧ ∃ i ∈ idxs,
            st.data v.vertexid = (g.vertexes.getD i default).label) := by
  induction idxs with
  | nil =>
    intro st u
    simp [markLoop]
  | cons i rest ih =>
    intro st u
    rw [markLoop, ih, markStep_data, markStep_indicator_iff]
    constructor
    · rintro ((hs | ⟨hu, hc⟩) | ⟨hu, j, hj, hc⟩)
      · exact Or.inl hs
      · exact Or.inr ⟨hu, i, List.mem_cons_self _ _, hc⟩
      · exact Or.inr ⟨hu, j, List.mem_cons_of_mem _ hj, hc⟩
    · rintro (hs | ⟨hu, j, hj, hc⟩)
      · exact Or.inl (Or.inl hs)
      · rcases List.mem_cons.mp hj with hji | hjr
        · subst hji
          exact Or.inl (Or.inr ⟨hu, hc⟩)
        · exact Or.inr ⟨hu, j, hjr, hc⟩

theorem markLoop_sim_of (g : ImmutableCSR) (v : GVertex) (idxs : List Nat)
    (st : SimState) (u p : Nat) (h : st.ms.sim u p = true) :
    (markLoop g v idxs st).ms.sim u p = true :=
  (markLoop_sim_iff g v idxs st u p).mpr (Or.inl h)

/- ------------------------------------------------------------------ -/
/- Lemmas on refineStep and refineLoop.                                -/
/- ------------------------------------------------------------------ -/

theorem refineStep_data (g : ImmutableCSR) (s ub : Bool) (v : GVertex)
    (i : Nat) (st : SimState) : (refineStep g s ub v i st).data = st.data := by
  simp only [refineStep]
  split_ifs
  · rfl
  · rw [scheduleLoop_data]
  · rfl

theorem refineStep_sim_mono (g : ImmutableCSR) (s ub : Bool) (v : GVertex)
    (i : Nat) (st : SimState) (u p : Nat)
    (h : (refineStep g s ub v i st).ms.sim u p = true) :
    st.ms.sim u p = true := by
  simp only [refineStep] at h
  split_ifs at h
  · exact h
  · rw [scheduleLoop_ms] at h
    exact simClear_eq_true _ _ _ _ _ h
  · exact h

theorem refineStep_converged_false (g : ImmutableCSR) (s ub : Bool)
    (v : GVertex) (i : Nat) (st : SimState) (h : st.converged = false) :
    (refineStep g s ub v i st).converged = false := by
  simp only [refineStep]
  split_ifs
  · exact h
  · exact scheduleLoop_converged_false _ _ _ h
  · exact h

theorem refineStep_prune_converged (g : ImmutableCSR) (s ub : Bool)
    (v : GVertex) (i : Nat) (st : SimState) (hne : v.edges ≠ [])
    (h : ∃ u p, st.ms.sim u p = true ∧
      (refineStep g s ub v i st).ms.sim u p = false) :
    (refineStep g s ub v i st).converged = false := by
  rcases h with ⟨u, p, htrue, hfalse⟩
  simp only [refineStep] at hfalse ⊢
  split_ifs at hfalse ⊢
  · rw [htrue] at hfalse
    exact absurd hfalse (by simp)
  · exact scheduleLoop_converged_ne_nil s hne _
  · rw [htrue] at hfalse
    exact absurd hfalse (by simp)

theorem refineStep_converged_change (g : ImmutableCSR) (s ub : Bool)
    (v : GVertex) (i : Nat) (st : SimState)
    (h : (refineStep g s ub v i st).converged = false) :
    st.converged = false ∨
      ∃ u p, st.ms.sim u p = true ∧
        (refineStep g s ub v i st).ms.sim u p = false := by
  by_cases hb : st.ms.sim i ((g.vertexes.getD i default).vid) = true
  · by_cases hc : (CheckU g st.ms v ((g.vertexes.getD i default).vid)).getD ub = true
    · left
      simp only [refineStep, hb, hc, if_true] at h
      exact h
    · right
      refine ⟨i, (g.vertexes.getD i default).vid, hb, ?_⟩
      simp only [refineStep, hb, if_true, hc, if_false,
        Bool.false_eq_true]
      rw [scheduleLoop_ms]
      exact simClear_self _ _ _
  · left
    simp only [refineStep, hb] at h
    simpa using h

theorem refineLoop_data (g : ImmutableCSR) (s ub : Bool) (v : GVertex)
    (idxs : List Nat) :
    ∀ st : SimState, (refineLoop g s ub v idxs st).data = st.data := by
  induction idxs with
  | nil => intro st; rfl
  | cons i rest ih =>
    intro st
    rw [refineLoop, ih, refineStep_data]

theorem refineLoop_sim_mono (g : ImmutableCSR) (s ub : Bool) (v : GVertex)
    (idxs : List Nat) :
    ∀ (st : SimState) (u p : Nat),
      (refineLoop g s ub v idxs st).ms.sim u p = true →
      st.ms.sim u p = true := by
  induction idxs with
  | nil => intro st u p h; exact h
  | cons i rest ih =>
    intro st u p h
    rw [refineLoop] at h
    exact refineStep_sim_mono g s ub v i st u p (ih _ u p h)

theorem refineLoop_sim_false (g : ImmutableCSR) (s ub : Bool) (v : GVertex)
    (idxs : List Nat) (st : SimState) (u p : Nat)
    (h : st.ms.sim u p = false) :
    (refineLoop g s ub v idxs st).ms.sim u p = false := by
  cases hf : (refineLoop g s ub v idxs st).ms.sim u p with
  | false => rfl
  | true =>
    rw [refineLoop_sim_mono g s ub v idxs st u p hf] at h
    exact absurd h (by simp)

theorem refineLoop_converged_false (g : ImmutableCSR) (s ub : Bool)
    (v : GVertex) (idxs : List Nat) :
    ∀ st : SimState, st.converged = false →
      (refineLoop g s ub v idxs st).converged = false := by
  induction idxs with
  | nil => intro st h; exact h
  | cons i rest ih =>
    intro st h
    rw [refineLoop]
    exact ih _ (refineStep_converged_false g s ub v i st h)

theorem refineLoop_converged_true (g : ImmutableCSR) (s ub : Bool)
    (v : GVertex) (idxs : List Nat) (st : SimState)
    (h : (refineLoop g s ub v idxs st).converged = true) :
    st.converged = true := by
  cases hc : st.converged with
  | true => rfl
  | false =>
    rw [refineLoop_converged_false g s ub v idxs st hc] at h
    exact absurd h (by simp)

theorem refineLoop_prune_converged (g : ImmutableCSR) (s ub : Bool)
    (v : GVertex) (idxs : List Nat) (hne : v.edges ≠ []) :
    ∀ st : SimState,
      (∃ u p, st.ms.sim u p = true ∧
        (refineLoop g s ub v idxs st).ms.sim u p = false) →
      (refineLoop g s ub v idxs st).converged = false := by
  induction idxs with
  | nil =>
    intro st h
    rcases h with ⟨u, p, htrue, hfalse⟩
    rw [refineLoop] at hfalse
    rw [htrue] at hfalse
    exact absurd hfalse (by simp)
  | cons i rest ih =>
    intro st h
    rcases h with ⟨u, p, htrue, hfalse⟩
    rw [refineLoop] at hfalse ⊢
    cases hstep : (refineStep g s ub v i st).ms.sim u p with
    | true => exact ih _ ⟨u, p, hstep, hfalse⟩
    | false =>
      apply refineLoop_converged_false
      exact refineStep_prune_converged g s ub v i st hne ⟨u, p, htrue, hstep⟩

theorem refineLoop_converged_change (g : ImmutableCSR) (s ub : Bool)
    (v : GVertex) (idxs : List Nat) :
    ∀ st : SimState,
      (refineLoop g s ub v idxs st).converged = false →
      st.converged = false ∨
        ∃ u p, st.ms.sim u p = true ∧
          (refineLoop g s ub v idxs st).ms.sim u p = false := by
  induction idxs with
  | nil => intro st h; exact Or.inl h
  | cons i rest ih =>
    intro st h
    rw [refineLoop] at h ⊢
    rcases ih _ h with hstep | ⟨u, p, htrue, hfalse⟩
    · rcases refineStep_converged_change g s ub v i st hstep with
        hst | ⟨u, p, htrue, hfalse⟩
      · exact Or.inl hst
      · refine Or.inr ⟨u, p, htrue, ?_⟩
        exact refineLoop_sim_false g s ub v rest _ u p hfalse
    · exact Or.inr ⟨u, p, refineStep_sim_mono g s ub v i st u p htrue, hfalse⟩

/- ------------------------------------------------------------------ -/
/- Lemmas on the pieces of update and on update itself.                -/
/- ------------------------------------------------------------------ -/

theorem updateEntry_ms (s : Bool) (v : GVertex) (st : SimState) :
    (updateEntry s v st).ms = st.ms := by
  unfold updateEntry
  split_ifs <;> rfl

theorem updateEntry_converged (s : Bool) (v : GVertex) (st : SimState) :
    (updateEntry s v st).converged = st.converged := by
  unfold updateEntry
  split_ifs <;> rfl

theorem updateEntry_data (s : Bool) (v : GVertex) (st : SimState) :
    (updateEntry s v st).data = st.data := by
  unfold updateEntry
  split_ifs <;> rfl

theorem updateIter0_ms (s : Bool) (r1 r2 : Nat) (v : GVertex) (st : SimState) :
    (updateIter0 s r1 r2 v st).ms = st.ms := by
  unfold updateIter0
  split_ifs <;> rfl

theorem updateIter0_converged (s : Bool) (r1 r2 : Nat) (v : GVertex)
    (st : SimState) : (updateIter0 s r1 r2 v st).converged = st.converged := by
  unfold updateIter0
  split_ifs <;> rfl

theorem updateIter1_data (g : ImmutableCSR) (v : GVertex) (st : SimState) :
    (updateIter1 g v st).data = st.data := by
  unfold updateIter1
  split_ifs
  · rfl
  · rw [markLoop_data]

theorem updateIter1_converged (g : ImmutableCSR) (v : GVertex)
    (st : SimState) : (updateIter1 g v st).converged = st.converged := by
  unfold updateIter1
  split_ifs
  · rfl
  · rw [markLoop_converged]

theorem updateIter1_sim_of (g : ImmutableCSR) (v : GVertex) (st : SimState)
    (u p : Nat) (h : st.ms.sim u p = true) :
    (updateIter1 g v st).ms.sim u p = true := by
  unfold updateIter1
  split_ifs
  · exact h
  · exact markLoop_sim_of g v _ st u p h

theorem update_eq_zero (g : ImmutableCSR) (s : Bool) (r1 r2 : Nat) (ub : Bool)
    (v : GVertex) (st : SimState) :
    update g s r1 r2 ub v 0 st = updateIter0 s r1 r2 v (updateEntry s v st) :=
  rfl

theorem update_eq_one (g : ImmutableCSR) (s : Bool) (r1 r2 : Nat) (ub : Bool)
    (v : GVertex) (st : SimState) :
    update g s r1 r2 ub v 1 st = updateIter1 g v (updateEntry s v st) :=
  rfl

theorem update_eq_refine (g : ImmutableCSR) (s : Bool) (r1 r2 : Nat)
    (ub : Bool) (v : GVertex) (iter : Nat) (st : SimState) (h : 2 ≤ iter) :
    update g s r1 r2 ub v iter st =
      refineLoop g s ub v (List.range g.num_vertexes) (updateEntry s v st) := by
  have h0 : ¬iter = 0 := by omega
  have h1 : ¬iter = 1 := by omega
  have h2 : 1 < iter := by omega
  simp [update, h0, h1, h2]

theorem update_ms_zero (g : ImmutableCSR) (s : Bool) (r1 r2 : Nat) (ub : Bool)
    (v : GVertex) (st : SimState) :
    (update g s r1 r2 ub v 0 st).ms = st.ms := by
  rw [update_eq_zero, updateIter0_ms, updateEntry_ms]

theorem update_sim_mono (g : ImmutableCSR) (s : Bool) (r1 r2 : Nat)
    (ub : Bool) (v : GVertex) (iter : Nat) (st : SimState) (u p : Nat)
    (hne : iter ≠ 1)
    (h : (update g s r1 r2 ub v iter st).ms.sim u p = true) :
    st.ms.sim u p = true := by
  rcases Nat.lt_or_ge iter 2 with hlt | hge
  · have h0 : iter = 0 := by omega
    subst h0
    rw [update_ms_zero] at h
    exact h
  · rw [update_eq_refine g s r1 r2 ub v iter st hge] at h
    have h2 := refineLoop_sim_mono g s ub v _ _ u p h
    rwa [updateEntry_ms] at h2

theorem update_sim_of_one (g : ImmutableCSR) (s : Bool) (r1 r2 : Nat)
    (ub : Bool) (v : GVertex) (st : SimState) (u p : Nat)
    (h : st.ms.sim u p = true) :
    (update g s r1 r2 ub v 1 st).ms.sim u p = true := by
  rw [update_eq_one]
  apply updateIter1_sim_of
  rw [updateEntry_ms]
  exact h

theorem update_converged_le_one (g : ImmutableCSR) (s : Bool) (r1 r2 : Nat)
    (ub : Bool) (v : GVertex) (iter : Nat) (st : SimState) (h : iter ≤ 1) :
    (update g s r1 r2 ub v iter st).converged = st.converged := by
  rcases Nat.le_one_iff_eq_zero_or_eq_one.mp h with h0 | h1
  · subst h0
    rw [update_eq_zero, updateIter0_converged, updateEntry_converged]
  · subst h1
    rw [update_eq_one, updateIter1_converged, updateEntry_converged]

theorem update_label_inv (g : ImmutableCSR) (s : Bool) (r1 r2 : Nat)
    (ub : Bool) (v : GVertex) (iter : Nat) (st : SimState) (h1 : 1 ≤ iter)
    (hInv : LabelInv g st) : LabelInv g (update g s r1 r2 ub v iter st) := by
  rcases Nat.lt_or_ge iter 2 with hlt | hge
  · have he : iter = 1 := by omega
    subst he
    intro u p hs
    rw [update_eq_one] at hs ⊢
    rw [updateIter1_data, updateEntry_data]
    revert hs
    unfold updateIter1
    split_ifs with hind
    · intro hs
      rw [updateEntry_ms] at hs
      exact hInv u p hs
    · intro hs
      rcases (markLoop_sim_iff g v _ _ u p).mp hs with hs0 | ⟨hu, _, hc⟩
      · rw [updateEntry_ms] at hs0
        exact hInv u p hs0
      · rw [updateEntry_data] at hc
        rw [hu]
        exact hc
  · intro u p hs
    rw [update_eq_refine g s r1 r2 ub v iter st hge] at hs ⊢
    rw [refineLoop_data, updateEntry_data]
    have := refineLoop_sim_mono g s ub v _ _ u p hs
    rw [updateEntry_ms] at this
    exact hInv u p this

/- ------------------------------------------------------------------ -/
/- Lemmas on runEvents.                                                -/
/- ------------------------------------------------------------------ -/

theorem runEvents_ms_zero (g : ImmutableCSR) (s : Bool) :
    ∀ (events : List Event) (st : SimState),
      (∀ e ∈ events, e.iteration = 0) →
      (runEvents g s events st).ms = st.ms := by
  intro events
  induction events with
  | nil => intro st _; rfl
  | cons e rest ih =>
    intro st h
    rw [runEvents, ih _ (fun e' hm => h e' (List.mem_cons_of_mem e hm))]
    rw [h e (List.mem_cons_self e rest), update_ms_zero]

theorem runEvents_label_inv (g : ImmutableCSR) (s : Bool) :
    ∀ (events : List Event) (st : SimState),
      (∀ e ∈ events, 1 ≤ e.iteration) →
      LabelInv g st → LabelInv g (runEvents g s events st) := by
  intro events
  induction events with
  | nil => intro st _ hInv; exact hInv
  | cons e rest ih =>
    intro st h hInv
    rw [runEvents]
    exact ih _ (fun e' hm => h e' (List.mem_cons_of_mem e hm))
      (update_label_inv g s e.rnd1 e.rnd2 e.ub e.v e.iteration st
        (h e (List.mem_cons_self e rest)) hInv)

theorem runEvents_sim_mono (g : ImmutableCSR) (s : Bool) :
    ∀ (events : List Event) (st : SimState) (u p : Nat),
      (∀ e ∈ events, 2 ≤ e.iteration) →
      (runEvents g s events st).ms.sim u p = true →
      st.ms.sim u p = true := by
  intro events
  induction events with
  | nil => intro st u p _ h; exact h
  | cons e rest ih =>
    intro st u p h hsim
    rw [runEvents] at hsim
    have hstep := ih _ u p (fun e' hm => h e' (List.mem_cons_of_mem e hm)) hsim
    exact update_sim_mono g s e.rnd1 e.rnd2 e.ub e.v e.iteration st u p
      (by have := h e (List.mem_cons_self e rest); omega) hstep

/- ------------------------------------------------------------------ -/
/- Claim theorems.                                                     -/
/- ------------------------------------------------------------------ -/

/-- Claim C1 (code bug, evaluation at the failing input): the child check of
the source disagrees with the specified child check. Pattern: vertex 0
(label 0) with sole out-neighbour vertex 1 (label 9); target vertex 4 has one
out-edge whose endpoint 5 carries label 9 and is a live candidate, so the
specified check succeeds (childCheckSpec = true), but kernel_check_childs
returns some false: it examines only the first edge, iterates the pattern
vertex array positions 0..outdegree-1 instead of the out-neighbour list, and
compares the edge payload rather than the endpoint label. -/
theorem c1_child_check_diverges_from_spec :
    kernel_check_childs c1G c1Ms c1U 0 = some false ∧
    childCheckSpec c1G c1Data c1Ms c1U
      (outNeighbors (c1G.vertexes.getD 0 default)) = true :=
  ⟨rfl, rfl⟩

/-- Claim C2 (code bug, evaluation at the failing input): an iteration-2
update of target vertex 5 (pattern patA has one vertex, so row 5 is not a
pattern row) reads and clears candidate bit (0, 0) - a row other than the
vertex's own - while leaving the vertex's own candidate bit (5, 0) untouched,
because the source indexes sim_sets_ with the pattern loop variable instead
of the vertex id. -/
theorem c2_refine_touches_foreign_row :
    c2V.vertexid = 5 ∧
    c2St.ms.sim 0 0 = true ∧
    (update patA false 0 0 false c2V 2 c2St).ms.sim 0 0 = false ∧
    c2St.ms.sim 5 0 = true ∧
    (update patA false 0 0 false c2V 2 c2St).ms.sim 5 0 = true :=
  ⟨rfl, rfl, rfl, rfl, rfl⟩

/-- Claim C3 (code bug, evaluation at the failing input): starting from a
state in which target vertex 0 has exactly one candidate bit (0, 0) and its
hasAny indicator set, the iteration-2 update prunes that last bit, yet the
indicator bit stays set: prune never clears the indicator, breaking the
stated invariant the moment a row becomes empty. -/
theorem c3_prune_leaves_indicator_set :
    c3St.ms.sim 0 0 = true ∧
    c3St.ms.indicator 0 = true ∧
    (update patA false 0 0 false c3V 2 c3St).ms.sim 0 0 = false ∧
    (update patA false 0 0 false c3V 2 c3St).ms.indicator 0 = true :=
  ⟨rfl, rfl, rfl, rfl⟩

/-- Claim C4 (counterexample): a full mini-iteration on the zero-edge vertex
0 holding candidate bit (0, 0). before_iteration resets the flag to
converged; the update prunes bit (0, 0) (the kernel result is undefined for
a zero-edge vertex and is resolved here to false), yet after_iteration still
declares the run converged: converged = false sits inside the per-edge loop,
which a zero-edge vertex never enters, so this prune is not recorded. -/
theorem c4_zero_edge_prune_declared_converged :
    (before_iteration 2 c4St).converged = true ∧
    (update patA false 0 0 false c4V 2 (before_iteration 2 c4St)).ms.sim 0 0
      = false ∧
    after_iteration
      (update patA false 0 0 false c4V 2 (before_iteration 2 c4St)) = true :=
  ⟨rfl, rfl, rfl⟩

/-- Claim C4 as amended: the flag is reset to converged (no change) at the
start of every iteration at least 1, and the end-of-iteration hook declares
convergence exactly when the flag is still set. A prune performed by an
update on a vertex with at least one edge forces the flag to changed
(converged = false); an update never sets the flag back to converged; and an
update that changes the flag pruned some candidate bit. A prune on a
zero-edge vertex is the one exception and does not set the flag (see the
counterexample). -/
theorem c4_convergence_flag (g : ImmutableCSR) (s : Bool) (r1 r2 : Nat)
    (ub : Bool) (v : GVertex) (iter : Nat) (st : SimState) :
    (1 ≤ iter → (before_iteration iter st).converged = true) ∧
    (after_iteration st = st.converged) ∧
    ((∃ i p, st.ms.sim i p = true ∧
        (update g s r1 r2 ub v iter st).ms.sim i p = false) →
      v.edges ≠ [] → (update g s r1 r2 ub v iter st).converged = false) ∧
    ((update g s r1 r2 ub v iter st).converged = true → st.converged = true) ∧
    ((update g s r1 r2 ub v iter st).converged = false →
      st.converged = false ∨
        ∃ i p, st.ms.sim i p = true ∧
          (update g s r1 r2 ub v iter st).ms.sim i p = false) := by
  refine ⟨?_, rfl, ?_, ?_, ?_⟩
  · intro h
    unfold before_iteration
    simp only [decide_eq_true_eq]
    omega
  · intro hprune hne
    rcases Nat.lt_or_ge iter 2 with hlt | hge
    · exfalso
      rcases hprune with ⟨i, p, htrue, hfalse⟩
      have hcase : iter = 0 ∨ iter = 1 := by omega
      rcases hcase with h0 | h1
      · subst h0
        rw [update_ms_zero] at hfalse
        rw [htrue] at hfalse
        exact absurd hfalse (by simp)
      · subst h1
        rw [update_sim_of_one g s r1 r2 ub v st i p htrue] at hfalse
        exact absurd hfalse (by simp)
    · rw [update_eq_refine g s r1 r2 ub v iter st hge] at hprune ⊢
      apply refineLoop_prune_converged g s ub v _ hne
      rcases hprune with ⟨i, p, htrue, hfalse⟩
      exact ⟨i, p, by rw [updateEntry_ms]; exact htrue, hfalse⟩
  · intro h
    rcases Nat.lt_or_ge iter 2 with hlt | hge
    · rw [update_converged_le_one g s r1 r2 ub v iter st (by omega)] at h
      exact h
    · rw [update_eq_refine g s r1 r2 ub v iter st hge] at h
      have h2 := refineLoop_converged_true g s ub v _ _ h
      rwa [updateEntry_converged] at h2
  · intro h
    rcases Nat.lt_or_ge iter 2 with hlt | hge
    · left
      rw [update_converged_le_one g s r1 r2 ub v iter st (by omega)] at h
      exact h
    · rw [update_eq_refine g s r1 r2 ub v iter st hge] at h ⊢
      rcases refineLoop_converged_change g s ub v _ _ h with
        hst | ⟨i, p, htrue, hfalse⟩
      · left
        rwa [updateEntry_converged] at hst
      · right
        refine ⟨i, p, ?_, hfalse⟩
        rwa [updateEntry_ms] at htrue

/-- Witness for c4_convergence_flag: each hypothesis discharged at concrete
inputs - the reset at iteration 2, the declaration equality, a prune on the
one-edge vertex c2V forcing converged = false, an update of c7St at
iteration 1 that keeps the flag set, and a pruneless iteration-2 update of
the quiet state whose flag was already clear. -/
theorem c4_convergence_flag_witness :
    (before_iteration 2 c4St).converged = true ∧
    after_iteration c4St = c4St.converged ∧
    (update patA false 0 0 false c2V 2 c2St).converged = false ∧
    c7St.converged = true ∧
    (c4StQuiet.converged = false ∨
      ∃ i p, c4StQuiet.ms.sim i p = true ∧
        (update patA false 0 0 true c4V 2 c4StQuiet).ms.sim i p = false) :=
  ⟨(c4_convergence_flag patA false 0 0 false c2V 2 c4St).1 (Nat.le_succ 1),
   (c4_convergence_flag patA false 0 0 false c2V 2 c4St).2.1,
   (c4_convergence_flag patA false 0 0 false c2V 2 c2St).2.2.1
     ⟨0, 0, rfl, rfl⟩ (List.cons_ne_nil _ _),
   (c4_convergence_flag c7G false 0 0 false c7V 1 c7St).2.2.2.1 rfl,
   (c4_convergence_flag patA false 0 0 true c4V 2 c4StQuiet).2.2.2.2 rfl⟩

/-- Claim C5: candidate bits are monotone. First part: a single update at any
iteration other than 1 never sets a candidate bit (a bit set afterwards was
set before). Second part: across any sequence of callbacks whose iterations
are all at least 2 - which is every callback strictly between the end of
iteration i and the end of iteration j for 1 <= i < j - a candidate bit set
at the end was set at the start, so candidate(u, p) true after iteration j
implies it was true after iteration i. -/
theorem c5_monotonicity (g : ImmutableCSR) (s : Bool) :
    (∀ (r1 r2 : Nat) (ub : Bool) (v : GVertex) (iter : Nat) (st : SimState)
        (u p : Nat), iter ≠ 1 →
        (update g s r1 r2 ub v iter st).ms.sim u p = true →
        st.ms.sim u p = true) ∧
    (∀ (events : List Event) (st : SimState) (u p : Nat),
        (∀ e ∈ events, 2 ≤ e.iteration) →
        (runEvents g s events st).ms.sim u p = true →
        st.ms.sim u p = true) :=
  ⟨fun r1 r2 ub v iter st u p hne h =>
      update_sim_mono g s r1 r2 ub v iter st u p hne h,
   fun events st u p h hsim => runEvents_sim_mono g s events st u p h hsim⟩

/-- Witness for c5_monotonicity: the first part applied to an iteration-0
update of c2St (bit (5, 0) survives backwards), the second to the
iteration-2 pruning event c5Ev on c5St (bit (1, 1) survives backwards). -/
theorem c5_monotonicity_witness :
    c2St.ms.sim 5 0 = true ∧ c5St.ms.sim 1 1 = true :=
  ⟨(c5_monotonicity patA false).1 0 0 false c2V 0 c2St 5 0 Nat.zero_ne_one rfl,
   (c5_monotonicity patA false).2 [c5Ev] c5St 1 1
     (List.forall_mem_singleton.mpr (Nat.le_refl 2)) rfl⟩

/-- Claim C6 (label necessity): starting from a state with no candidate bit
set, after any run consisting of iteration-0 callbacks followed by callbacks
of iteration at least 1, every set candidate bit (u, p) implies that u's
vertex data (fixed since iteration 0: no later callback writes it) equals
the label of pattern vertex p. -/
theorem c6_label_necessity (g : ImmutableCSR) (s : Bool)
    (e0s e1s : List Event) (st : SimState)
    (hclear : ∀ u p, st.ms.sim u p = false)
    (h0 : ∀ e ∈ e0s, e.iteration = 0)
    (h1 : ∀ e ∈ e1s, 1 ≤ e.iteration)
    (u p : Nat) (_hp : p < g.num_vertexes)
    (hsim : (runEvents g s e1s (runEvents g s e0s st)).ms.sim u p = true) :
    (runEvents g s e1s (runEvents g s e0s st)).data u =
      (g.vertexes.getD p default).label := by
  have hms := runEvents_ms_zero g s e0s st h0
  have hInv0 : LabelInv g (runEvents g s e0s st) := by
    intro u' p' hs
    rw [hms] at hs
    rw [hclear u' p'] at hs
    exact absurd hs (by simp)
  exact runEvents_label_inv g s e1s _ h1 hInv0 u p hsim

/-- Witness for c6_label_necessity: vertex 0 is seeded with label 4 at
iteration 0, gains candidate bit (0, 0) at iteration 1, and indeed its data
equals the label of pattern vertex 0. -/
theorem c6_label_necessity_witness :
    (runEvents c7G false [c6Ev1] (runEvents c7G false [c6Ev0] st0)).data 0 =
      (c7G.vertexes.getD 0 default).label :=
  c6_label_necessity c7G false [c6Ev0] [c6Ev1] st0 (fun _ _ => rfl)
    (List.forall_mem_singleton.mpr rfl)
    (List.forall_mem_singleton.mpr (Nat.le_refl 1)) 0 0 Nat.zero_lt_one rfl

/-- Claim C7 (iteration-1 behaviour): if the vertex's hasAny indicator is
already set the update leaves the whole match set unchanged (idempotent
re-entry); otherwise, when the vertex's candidate row is empty, the update
sets bit (vertexid, p) exactly when the vertex's data equals pattern vertex
p's label, and sets the indicator whenever at least one such bit is set. -/
theorem c7_initial_candidacy (g : ImmutableCSR) (s : Bool) (r1 r2 : Nat)
    (ub : Bool) (v : GVertex) (st : SimState) :
    (st.ms.indicator v.vertexid = true →
      (update g s r1 r2 ub v 1 st).ms = st.ms) ∧
    (st.ms.indicator v.vertexid = false →
      (∀ q, st.ms.sim v.vertexid q = false) →
      (∀ p, p < g.num_vertexes →
        ((update g s r1 r2 ub v 1 st).ms.sim v.vertexid p = true ↔
          st.data v.vertexid = (g.vertexes.getD p default).label)) ∧
      ((∃ p, p < g.num_vertexes ∧
          (update g s r1 r2 ub v 1 st).ms.sim v.vertexid p = true) →
        (update g s r1 r2 ub v 1 st).ms.indicator v.vertexid = true)) := by
  constructor
  · intro hind
    rw [update_eq_one]
    unfold updateIter1
    rw [updateEntry_ms]
    rw [if_pos hind]
    exact updateEntry_ms s v st
  · intro hind hrow
    rw [update_eq_one]
    unfold updateIter1
    rw [updateEntry_ms, if_neg (by rw [hind]; simp)]
    constructor
    · intro p hp
      rw [markLoop_sim_iff, updateEntry_ms, updateEntry_data]
      constructor
      · rintro (hs | ⟨_, _, hc⟩)
        · rw [hrow p] at hs
          exact absurd hs (by simp)
        · exact hc
      · intro hc
        exact Or.inr ⟨rfl, List.mem_range.mpr hp, hc⟩
    · rintro ⟨p, hp, hbit⟩
      rw [markLoop_indicator_iff, updateEntry_ms, updateEntry_data]
      rcases (markLoop_sim_iff g v _ _ v.vertexid p).mp hbit with
        hs | ⟨_, _, hc⟩
      · rw [updateEntry_ms] at hs
        rw [hrow p] at hs
        exact absurd hs (by simp)
      · rw [updateEntry_data] at hc
        exact Or.inr ⟨rfl, p, List.mem_range.mpr hp, hc⟩

/-- Witness for c7_initial_candidacy: vertex 0 with data 4 against the
one-vertex pattern of label 4, starting from the empty match set: bit (0, 0)
is set and the indicator follows. -/
theorem c7_initial_candidacy_witness :
    (update c7G false 0 0 false c7V 1 c7St).ms.sim 0 0 = true ∧
    (update c7G false 0 0 false c7V 1 c7St).ms.indicator 0 = true := by
  have h := (c7_initial_candidacy c7G false 0 0 false c7V c7St).2 rfl
    (fun _ => rfl)
  exact ⟨(h.1 0 Nat.zero_lt_one).mpr rfl,
    h.2 ⟨0, Nat.zero_lt_one, (h.1 0 Nat.zero_lt_one).mpr rfl⟩⟩

/-- Claim C8: kernel_check_childs is defined (returns a value) exactly when
the vertex has at least one edge, and its result depends only on the first
edge - it returns during the first pass of its edge loop, so the tail of the
edge list is irrelevant; with no edges control falls off the end (modelled
as none). -/
theorem c8_check_childs_totality (g : ImmutableCSR) (ms : MatchSet)
    (u : GVertex) (pvid : Nat) :
    (kernel_check_childs g ms u pvid = none ↔ u.edges = []) ∧
    (∀ (e : Nat × Nat) (t t' : List (Nat × Nat)),
      kernel_check_childs g ms ⟨u.vertexid, e :: t⟩ pvid =
        kernel_check_childs g ms ⟨u.vertexid, e :: t'⟩ pvid) := by
  constructor
  · cases he : u.edges with
    | nil => simp [kernel_check_childs, he]
    | cons e t => simp [kernel_check_childs, he]
  · intro e t t'
    rfl

/-- Witness for c8_check_childs_totality: the zero-edge vertex 7 gets the
undefined result none, and the result on vertex 4 is unchanged when a second
edge is appended after the first. -/
theorem c8_check_childs_totality_witness :
    kernel_check_childs c1G c1Ms ⟨7, []⟩ 0 = none ∧
    kernel_check_childs c1G c1Ms ⟨4, [(5, 9), (0, 0)]⟩ 0 =
      kernel_check_childs c1G c1Ms ⟨4, [(5, 9)]⟩ 0 :=
  ⟨(c8_check_childs_totality c1G c1Ms ⟨7, []⟩ 0).1.mpr rfl,
   (c8_check_childs_totality c1G c1Ms ⟨4, [(5, 9)]⟩ 0).2 (5, 9) [(0, 0)] []⟩

/-- Claim C9 (code bug, evaluation at the failing input): for n = 3 the
clique builder records outdegree 2 for vertex 0 as claimed, but its
out-edge array ends up as cells [none, some 0] with the out-of-bounds write
(2, 0) recorded: the loop stores the vertex's own id 0 (not the neighbour id)
at index j, writes past the end at j = 2, and never writes slot 0. Vertex 2
(the last one) stays in bounds but holds [some 2, some 2] - its own id
twice - instead of the neighbour ids 0 and 1. -/
theorem c9_clique_construction_wrong :
    ((InitPatternNClique rnd0 3).vertexes.getD 0 default).outdegree = 2 ∧
    ((InitPatternNClique rnd0 3).vertexes.getD 0 default).out_edges =
      ⟨2, [none, some 0], [(2, 0)]⟩ ∧
    ((InitPatternNClique rnd0 3).vertexes.getD 2 default).out_edges =
      ⟨2, [some 2, some 2], []⟩ :=
  ⟨rfl, rfl, rfl⟩

/-- Claim C10 (counterexample): at vertexCount 0 the builder does not fail -
its return type has no error path at all - and instead hands back an
allocated empty pattern graph with zero vertices and zero edges. -/
theorem c10_zero_count_returns_graph :
    InitPatternNClique rnd0 0 = ⟨0, 0, []⟩ :=
  rfl

/-- Claim C10 as amended: InitPatternNClique performs no vertex-count
validation; for every random source and vertexCount 0 (the only
non-positive size_t value) it returns the empty pattern graph, and no
InvalidArgument error exists in the code. -/
theorem c10_no_validation (rnd : Nat → Nat) :
    InitPatternNClique rnd 0 = ⟨0, 0, []⟩ :=
  rfl

end GraphSim
